import Mathlib

/-!
Verification of the WiFi geolocation positioning engine
(`backend/main.py`): frame decoding, fingerprint store construction,
RSSI matching, weighted-centroid triangulation, nearest-AP room
estimation and the final arbitration in `locate_position`.

Numeric modelling: the Python code computes with IEEE floats; here the
purely rational arithmetic (averages, scores, confidences) is modelled
over `ℚ` and the transcendental path-loss computation of `triangulate`
over `ℝ`.  Observation RSSI values and database RSSI samples are
integers (`ℤ`).  The wall-clock timestamp (`datetime.now().isoformat()`)
is modelled as an explicit extra input threaded to the `timestamp`
field of the result.
-/

namespace Geoloc

/-- One decoded observation: `{mac, rssi}` as produced by
`decode_payload` and consumed by the locator functions. -/
structure Obs where
  mac : String
  rssi : ℤ
deriving DecidableEq, Repr

/-- One row of the `fingerprints` table as loaded by `load_database`
into the global `fingerprint_data` list (fields in column order
`room, floor, location, lat, lon, mac, ssid, rssi, timestamp`). -/
structure FP where
  room : String
  floor : String
  location : String
  lat : ℚ
  lon : ℚ
  mac : String
  ssid : String
  rssi : ℤ
  timestamp : String
deriving DecidableEq, Repr

/-- One value of the `ap_database` dictionary: the per-room average
position and labels recorded for an AP. -/
structure APInfo where
  ssid : String
  lat : ℚ
  lon : ℚ
  location : String
  floor : String
  room : String
deriving DecidableEq, Repr

/-- The pair of global reference structures built by `load_database`:
`fingerprint_data` and `ap_database` (the latter as an association
list in insertion order; the code only ever reads it through
`.get`, i.e. key lookup). -/
structure Store where
  fps : List FP
  apDb : List (String × APInfo)
deriving DecidableEq, Repr

/-! ## Frame Decoder (`decode_payload`) -/

/-- Lowercase hexadecimal digit, as produced by the Python format
specifier `02x`. -/
def hexChar (n : ℕ) : Char :=
  if n < 10 then Char.ofNat (48 + n) else Char.ofNat (87 + n)

/-- Two-digit lowercase hexadecimal rendering of one byte
(Python `f-string` format `02x` for a value below 256). -/
def byteHex (b : Fin 256) : String :=
  String.mk [hexChar (b.val / 16), hexChar (b.val % 16)]

/-- Two-complement reading of the RSSI byte:
`rssi_byte if rssi_byte < 128 else rssi_byte - 256`. -/
def toSigned (b : Fin 256) : ℤ :=
  if b.val < 128 then (b.val : ℤ) else (b.val : ℤ) - 256

/-- The colon-separated MAC string built from six raw bytes. -/
def macString (b0 b1 b2 b3 b4 b5 : Fin 256) : String :=
  String.intercalate ":" ([b0, b1, b2, b3, b4, b5].map byteHex)

/-- The per-block extraction loop of `decode_payload`: each 7-byte
block yields one observation, except that an all-zero MAC (padding)
is dropped.  Called only on buffers whose length is a multiple of 7,
for which the trailing incomplete chunk case never occurs. -/
def decodeBlocks : List (Fin 256) → List Obs
  | b0 :: b1 :: b2 :: b3 :: b4 :: b5 :: b6 :: rest =>
      let mac := macString b0 b1 b2 b3 b4 b5
      (if mac ≠ "00:00:00:00:00:00" then [Obs.mk mac (toSigned b6)] else [])
        ++ decodeBlocks rest
  | _ => []

/-- Decoding of the already base64-decoded byte buffer (`decode_payload`): empty
list unless the length is a multiple of 7, otherwise one observation
per non-padding 7-byte block.  (The `try/except` wrapper of the Python
function, which also maps base64 errors to `[]`, corresponds to this
function being total.) -/
def decode_payload (buf : List (Fin 256)) : List Obs :=
  if buf.length % 7 ≠ 0 then [] else decodeBlocks buf

/-! ## Grouping of fingerprints by room (shared by `load_database`
and `simple_rssi_matching`)

Both functions rebuild a `defaultdict` keyed by `f"{room}_{floor}"`.
We model the key as the pair `(room, floor)` — the Python string key
together with the later `room_key.split('_')` recovers exactly this
pair whenever room and floor contain no underscore.  Python dict
iteration is in key-insertion order, i.e. first-occurrence order of
the keys, modelled by `firstDedup`. -/

/-- Keep the first occurrence of every element, in order (the key
order of a Python dict filled by repeated insertion). -/
def firstDedupAux [DecidableEq α] (seen : List α) : List α → List α
  | [] => []
  | a :: l => if a ∈ seen then firstDedupAux seen l else a :: firstDedupAux (a :: seen) l

/-- First-occurrence deduplication of a list. -/
def firstDedup [DecidableEq α] (l : List α) : List α := firstDedupAux [] l

/-- ASCII lowering of one character (Python `str.lower()` restricted
to the ASCII range, which covers hex-and-colon MAC strings). -/
def lowerChar (c : Char) : Char :=
  if 65 ≤ c.toNat ∧ c.toNat ≤ 90 then Char.ofNat (c.toNat + 32) else c

/-- Python `str.lower()` as used on MAC address strings. -/
def lowerString (s : String) : String :=
  String.mk (s.data.map lowerChar)

/-- Grouping key of one fingerprint row: `(room, floor)`. -/
def fpKey (fp : FP) : String × String := (fp.room, fp.floor)

/-- The room keys of the aggregation dictionaries, in insertion
order. -/
def roomKeys (fps : List FP) : List (String × String) :=
  firstDedup (fps.map fpKey)

/-- The member samples of one room, in list order (the concatenation
order of the per-room `lat`/`lon`/`rssi_by_mac` list appends). -/
def roomFps (fps : List FP) (k : String × String) : List FP :=
  fps.filter (fun fp => fpKey fp = k)

/-- The distinct MACs known to a room, in first-occurrence order
(the key order of the per-room `rssi_by_mac` dict; for
`load_database` this is the room `macs` set, of which the code only
uses the elements, never the order). -/
def roomMacs (fk : List FP) : List String :=
  firstDedup (fk.map (·.mac))

/-- All RSSI samples recorded in a room for one MAC, in order. -/
def rssiList (fk : List FP) (m : String) : List ℤ :=
  (fk.filter (fun fp => fp.mac = m)).map (·.rssi)

/-- Mean of an integer sample list, as a rational
(`sum(rssi_list) / len(rssi_list)`). -/
def avgRssi (l : List ℤ) : ℚ := ((l.sum : ℤ) : ℚ) / (l.length : ℚ)

/-- Repeated overwriting assignment `d['location'] = fp['location']`
inside the grouping loop: the final value is the one of the last
member sample (empty string for an empty group, the initial value). -/
def lastLocation (fk : List FP) : String :=
  fk.foldl (fun _ fp => fp.location) ""

/-! ## RSSI Matcher (`simple_rssi_matching`) -/

/-- The dict comprehension
`{ap['mac'].lower(): ap['rssi'] for ap in aps}`: lookup of a detected
RSSI by lowered MAC, where a later duplicate key overwrites an
earlier one. -/
def detectedRssi (aps : List Obs) (m : String) : Option ℤ :=
  (aps.reverse.find? (fun a => lowerString a.mac == m)).map (·.rssi)

/-- The MACs of a room that are present in the live observation, in
room order — exactly the iterations of the scoring loop that pass the
`if mac in detected_macs` test. -/
def matchedMacs (fk : List FP) (aps : List Obs) : List String :=
  (roomMacs fk).filter (fun m => (detectedRssi aps m).isSome)

/-- The `matches` counter of a room. -/
def matchCount (fk : List FP) (aps : List Obs) : ℕ :=
  (matchedMacs fk aps).length

/-- The accumulated `score` of a room before averaging: each matched
MAC contributes `100 - abs(detected - avg)` (no cap on the
difference). -/
def scoreSum (fk : List FP) (aps : List Obs) : ℚ :=
  ((matchedMacs fk aps).map
    (fun m => 100 - |((detectedRssi aps m).getD 0 : ℚ) - avgRssi (rssiList fk m)|)).sum

/-- The averaged score `score / matches` of a room. -/
def roomScoreQ (fps : List FP) (aps : List Obs) (k : String × String) : ℚ :=
  scoreSum (roomFps fps k) aps / (matchCount (roomFps fps k) aps : ℚ)

/-- The best-match dictionary built for a room when it becomes the
current leader. -/
structure Match where
  room : String
  floor : String
  lat : ℚ
  lon : ℚ
  location : String
  confidence : ℚ
  matched_aps : ℕ
deriving DecidableEq, Repr

/-- The `best_match` record the matcher builds for room `k`. -/
def mkMatch (fps : List FP) (aps : List Obs) (k : String × String) : Match :=
  let fk := roomFps fps k
  { room := k.1
    floor := k.2
    lat := (fk.map (·.lat)).sum / (fk.length : ℚ)
    lon := (fk.map (·.lon)).sum / (fk.length : ℚ)
    location := lastLocation fk
    confidence := min (roomScoreQ fps aps k / 100) 1
    matched_aps := matchCount fk aps }

/-- One iteration of the room loop of `simple_rssi_matching`: rooms
with `matches > 0` compete by strict score comparison against the
current best (`best_score` starts at minus infinity, modelled by the
`none` accumulator). -/
def bestStep (fps : List FP) (aps : List Obs)
    (acc : Option (ℚ × Match)) (k : String × String) : Option (ℚ × Match) :=
  if 0 < matchCount (roomFps fps k) aps then
    match acc with
    | none => some (roomScoreQ fps aps k, mkMatch fps aps k)
    | some (bs, bm) =>
        if bs < roomScoreQ fps aps k then some (roomScoreQ fps aps k, mkMatch fps aps k)
        else some (bs, bm)
  else acc

/-- The matcher `simple_rssi_matching`: fold of `bestStep` over the rooms in
dict order, returning the final `best_match` (or `None`). -/
def simple_rssi_matching (fps : List FP) (aps : List Obs) : Option Match :=
  ((roomKeys fps).foldl (bestStep fps aps) none).map (·.2)

/-! ## Distance Triangulator (`rssi_to_distance`, `triangulate`) -/

/-- Dictionary lookup `ap_database.get(mac)` in the association list. -/
def dbLookup (db : List (String × APInfo)) (m : String) : Option APInfo :=
  (db.find? (fun e => e.1 == m)).map (·.2)

/-- Log-distance path-loss model:
`10 ** ((rssi_at_1m - rssi) / (10 * n))` with `rssi_at_1m = -40` and
`n = 2.7`. -/
noncomputable def rssi_to_distance (rssi : ℤ) : ℝ :=
  (10 : ℝ) ^ ((((-40 : ℝ) - (rssi : ℝ)) / (10 * 2.7)) : ℝ)

/-- Inverse-distance weight `2 / distance ** 0.65` of one matched
observation. -/
noncomputable def triWeight (rssi : ℤ) : ℝ :=
  2 / (rssi_to_distance rssi) ^ ((0.65 : ℝ))

/-- One entry of the `matched_details` list (the code formats the
distance as a string for the frontend; the underlying value is kept
here). -/
structure TriDetail where
  mac : String
  ssid : String
  rssi : ℤ
  distance : ℝ

/-- The running state of the `triangulate` loop: weighted latitude
and longitude sums, total weight, matched counter and details. -/
structure TriAcc where
  nx : ℝ
  ny : ℝ
  den : ℝ
  matched : ℕ
  details : List TriDetail

/-- One iteration of the `triangulate` loop over the detected APs. -/
noncomputable def triStep (db : List (String × APInfo)) (acc : TriAcc) (a : Obs) : TriAcc :=
  match dbLookup db (lowerString a.mac) with
  | some known =>
      { nx := acc.nx + (known.lat : ℝ) * triWeight a.rssi
        ny := acc.ny + (known.lon : ℝ) * triWeight a.rssi
        den := acc.den + triWeight a.rssi
        matched := acc.matched + 1
        details := acc.details ++ [⟨a.mac, known.ssid, a.rssi, rssi_to_distance a.rssi⟩] }
  | none => acc

/-- The successful triangulation dictionary. -/
structure TriResult where
  success : Bool
  lat : ℝ
  lon : ℝ
  matched_aps : ℕ
  details : List TriDetail

/-- The fallback `triangulate`: weighted centroid of the known positions of all
detected APs present in `ap_database`; `None` when the weight sum is
not positive. -/
noncomputable def triangulate (db : List (String × APInfo)) (aps : List Obs) : Option TriResult :=
  let r := aps.foldl (triStep db) ⟨0, 0, 0, 0, []⟩
  if 0 < r.den then some ⟨true, r.nx / r.den, r.ny / r.den, r.matched, r.details⟩
  else none

/-- The observations whose (lowered) MAC is present in
`ap_database` — the iterations of the `triangulate` and
`locate_room` loops that find `known`. -/
def matchedObs (db : List (String × APInfo)) (aps : List Obs) : List Obs :=
  aps.filter (fun a => (dbLookup db (lowerString a.mac)).isSome)

/-! ## Nearest-AP room estimator (`locate_room`) -/

/-- The result dictionary of `locate_room`. -/
structure RoomResult where
  room : String
  floor : String
  location : String
  rssi : ℤ
  confidence : String
deriving DecidableEq, Repr

/-- One iteration of the `locate_room` loop: a known AP replaces the
current best only when its RSSI is strictly larger than the running
`best_rssi`. -/
def roomStep (db : List (String × APInfo)) (acc : Option APInfo × ℤ) (a : Obs) :
    Option APInfo × ℤ :=
  match dbLookup db (lowerString a.mac) with
  | some known => if acc.2 < a.rssi then (some known, a.rssi) else acc
  | none => acc

/-- The estimator `locate_room`: the room of the known AP with the strongest
signal; the accumulator starts at `(None, -100)` and an AP is taken
only on a strictly larger RSSI. -/
def locate_room (db : List (String × APInfo)) (aps : List Obs) : RoomResult :=
  let r := aps.foldl (roomStep db) (none, -100)
  match r.1 with
  | some m =>
      ⟨m.room, m.floor, m.location, r.2,
        if -50 < r.2 then "Haute" else if -70 < r.2 then "Moyenne" else "Faible"⟩
  | none => ⟨"Unknown", "?", "Position non détectée", 0, "Aucune"⟩

/-! ## Position Arbiter (`locate_position`) -/

/-- The `details` payload of a position result: a list of raw
observations in the matcher branch, the triangulation details in the
fallback branch. -/
inductive Details where
  | fp : List Obs → Details
  | tri : List TriDetail → Details

/-- The result dictionary of `locate_position`.  Keys that a branch
does not set are `none`.  The code formats `confidence` as a percent
string (`f-string` with `.0f`); the unrounded numeric value it
formats is recorded here. -/
structure PositionResult where
  success : Bool
  lat : Option ℝ := none
  lon : Option ℝ := none
  room : Option String := none
  floor : Option String := none
  location : Option String := none
  method : Option String := none
  confidence : Option ℚ := none
  matched_aps : Option ℕ := none
  details : Option Details := none
  error : Option String := none
  timestamp : String

/-- The failure result for an empty observation list. -/
def noDataResult (ts : String) : PositionResult :=
  { success := false, error := some "No APs detected", timestamp := ts }

/-- The success result of the matcher branch (`method` is the string
`"RSSI Matching"`; latitude/longitude and labels all come from the
matched room). -/
noncomputable def fingerResult (m : Match) (aps : List Obs) (ts : String) : PositionResult :=
  { success := true
    lat := some ((m.lat : ℝ))
    lon := some ((m.lon : ℝ))
    room := some m.room
    floor := some m.floor
    location := some m.location
    method := some "RSSI Matching"
    confidence := some (m.confidence * 100)
    matched_aps := some m.matched_aps
    details := some (Details.fp (aps.take 5))
    error := none
    timestamp := ts }

/-- The success result of the fallback branch: position from
`triangulate`, room labels from `locate_room`. -/
noncomputable def triBranchResult (c : TriResult) (rr : RoomResult) (ts : String) : PositionResult :=
  { success := true
    lat := some c.lat
    lon := some c.lon
    room := some rr.room
    floor := some rr.floor
    location := some rr.location
    method := some "Triangulation"
    confidence := some (min ((c.matched_aps : ℚ) / 3 * 100) 100)
    matched_aps := some c.matched_aps
    details := some (Details.tri c.details)
    error := none
    timestamp := ts }

/-- The failure result when no strategy applies. -/
def insufficientResult (ts : String) : PositionResult :=
  { success := false, error := some "Insufficient data", timestamp := ts }

/-- The arbiter `locate_position`: empty-input guard, then the matcher with the
`> 0.3` confidence threshold, then triangulation with the room
estimator, else failure.  (The code computes all three candidate
results before branching; only the branch taken reads them, so the
order of evaluation is immaterial.)  The timestamp argument models
`datetime.now().isoformat()`. -/
noncomputable def locate_position (st : Store) (aps : List Obs) (ts : String) : PositionResult :=
  if aps = [] then noDataResult ts
  else
    match simple_rssi_matching st.fps aps with
    | some m =>
        if (3 : ℚ) / 10 < m.confidence then fingerResult m aps ts
        else
          match triangulate st.apDb aps with
          | some c => triBranchResult c (locate_room st.apDb aps) ts
          | none => insufficientResult ts
    | none =>
        match triangulate st.apDb aps with
        | some c => triBranchResult c (locate_room st.apDb aps) ts
        | none => insufficientResult ts

/-! ## Database loading (`load_database`) -/

/-- MAC lowering applied to every loaded row
(`row[6].lower()`). -/
def lowerMac (fp : FP) : FP :=
  { fp with mac := lowerString fp.mac }

/-- Conditional insertion into `ap_database`:
`if mac not in ap_database: ap_database[mac] = info` (a Python dict
insert appends the new key at the end of the iteration order). -/
def insertNew (db : List (String × APInfo)) (m : String) (info : APInfo) :
    List (String × APInfo) :=
  if (dbLookup db m).isSome then db else db ++ [(m, info)]

/-- The `ap_database` value built for every MAC of one room: the
room-average position with the room labels. -/
def roomInfo (fps : List FP) (k : String × String) : APInfo :=
  let fk := roomFps fps k
  { ssid := "Unknown"
    lat := (fk.map (·.lat)).sum / (fk.length : ℚ)
    lon := (fk.map (·.lon)).sum / (fk.length : ℚ)
    location := lastLocation fk
    floor := k.2
    room := k.1 }

/-- The inner loop of step 3 of `load_database`: insert every MAC of
the room under the room info, keeping existing entries. -/
def insertRoomMacs (fps : List FP) (db : List (String × APInfo)) (k : String × String) :
    List (String × APInfo) :=
  (roomMacs (roomFps fps k)).foldl (fun d m => insertNew d m (roomInfo fps k)) db

/-- Steps 2 and 3 of `load_database`: group the full fingerprint list
by room and add every room MAC not yet present to `ap_database`. -/
def buildApDb (db0 : List (String × APInfo)) (fps : List FP) : List (String × APInfo) :=
  (roomKeys fps).foldl (insertRoomMacs fps) db0

/-- The loader `load_database`: append the (mac-lowered) rows to the global
`fingerprint_data` list — the code never clears it — and extend
`ap_database` with the MACs of the resulting grouping. -/
def load_database (st : Store) (samples : List FP) : Store :=
  let fps' := st.fps ++ samples.map lowerMac
  ⟨fps', buildApDb st.apDb fps'⟩

/-! ## Auxiliary definitions used by the statements -/

/-- Key membership in `ap_database` (`mac in ap_database`). -/
def present (db : List (String × APInfo)) (m : String) : Prop :=
  (dbLookup db m).isSome = true

instance (db : List (String × APInfo)) (m : String) : Decidable (present db m) := by
  unfold present
  infer_instance

/-- The recorded latitude of the AP-directory entry of an observation
(zero default, only read when the entry exists). -/
def triLat (db : List (String × APInfo)) (a : Obs) : ℚ :=
  ((dbLookup db (lowerString a.mac)).map (·.lat)).getD 0

/-- The recorded longitude of the AP-directory entry of an
observation. -/
def triLon (db : List (String × APInfo)) (a : Obs) : ℚ :=
  ((dbLookup db (lowerString a.mac)).map (·.lon)).getD 0

/-- The recorded SSID of the AP-directory entry of an observation. -/
def triSsid (db : List (String × APInfo)) (a : Obs) : String :=
  ((dbLookup db (lowerString a.mac)).map (·.ssid)).getD ""

/-- Replacing the timestamp by a fixed value, to state timestamp-free
determinism. -/
def clearTimestamp (r : PositionResult) : PositionResult :=
  { r with timestamp := "" }

/-- Zone confidence computed as the specification words it: per-AP
score `100 - min(diff, 100)`, unweighted average, scaled by the
coverage factor `0.5 + 0.5 * (matched / totalKnownAps)`, then
`clamp(final / 100, 0, 1)`.  This definition follows the
specification text, for comparison with the code, which caps nothing,
applies no coverage factor and clamps only from above. -/
def spec_zone_confidence (fps : List FP) (aps : List Obs) (k : String × String) : ℚ :=
  let fk := roomFps fps k
  let per := (matchedMacs fk aps).map
    (fun m => 100 - min (|((detectedRssi aps m).getD 0 : ℚ) - avgRssi (rssiList fk m)|) 100)
  let avg := per.sum / (per.length : ℚ)
  let cov := (matchCount fk aps : ℚ) / ((roomMacs fk).length : ℚ)
  min (max ((avg * (1 / 2 + 1 / 2 * cov)) / 100) 0) 1

/-! ## Lemmas: first-occurrence deduplication -/

lemma firstDedupAux_eq_nil [DecidableEq α] :
    ∀ (t seen : List α), (∀ x ∈ t, x ∈ seen) → firstDedupAux seen t = [] := by
  intro t
  induction t with
  | nil => intro seen _; rfl
  | cons a t ih =>
      intro seen h
      have ha : a ∈ seen := h a (List.mem_cons_self a t)
      simp only [firstDedupAux, if_pos ha]
      exact ih seen (fun x hx => h x (List.mem_cons_of_mem a hx))

lemma firstDedupAux_append [DecidableEq α] :
    ∀ (l t seen : List α), (∀ x ∈ t, x ∈ seen ∨ x ∈ l) →
      firstDedupAux seen (l ++ t) = firstDedupAux seen l := by
  intro l
  induction l with
  | nil =>
      intro t seen h
      simp only [List.nil_append, firstDedupAux]
      exact firstDedupAux_eq_nil t seen (fun x hx => (h x hx).resolve_right (by simp))
  | cons a l ih =>
      intro t seen h
      simp only [List.cons_append, firstDedupAux]
      by_cases ha : a ∈ seen
      · rw [if_pos ha, if_pos ha]
        refine ih t seen (fun x hx => ?_)
        rcases h x hx with hs | hc
        · exact Or.inl hs
        · rcases List.mem_cons.mp hc with rfl | hl
          · exact Or.inl ha
          · exact Or.inr hl
      · rw [if_neg ha, if_neg ha]
        refine congrArg (a :: ·) (ih t (a :: seen) (fun x hx => ?_))
        rcases h x hx with hs | hc
        · exact Or.inl (List.mem_cons_of_mem a hs)
        · rcases List.mem_cons.mp hc with rfl | hl
          · exact Or.inl (List.mem_cons_self x seen)
          · exact Or.inr hl

lemma firstDedup_append_self [DecidableEq α] (l : List α) :
    firstDedup (l ++ l) = firstDedup l :=
  firstDedupAux_append l l [] (fun _ hx => Or.inr hx)

/-! ## Lemmas: aggregation over a duplicated sample list

Loading the same sample batch twice appends a second copy of every
row to `fingerprint_data`.  The per-room aggregates are invariant
under this duplication. -/

lemma double_div_double (s n : ℚ) : (s + s) / (n + n) = s / n := by
  rw [← two_mul s, ← two_mul n, mul_div_mul_left s n two_ne_zero]

lemma roomFps_append (fps fps' : List FP) (k : String × String) :
    roomFps (fps ++ fps') k = roomFps fps k ++ roomFps fps' k := by
  simp [roomFps, List.filter_append]

lemma roomMacs_append_self (fk : List FP) :
    roomMacs (fk ++ fk) = roomMacs fk := by
  unfold roomMacs
  rw [List.map_append, firstDedup_append_self]

lemma rssiList_append_self (fk : List FP) (m : String) :
    rssiList (fk ++ fk) m = rssiList fk m ++ rssiList fk m := by
  simp [rssiList, List.filter_append]

lemma avgRssi_append_self (l : List ℤ) : avgRssi (l ++ l) = avgRssi l := by
  unfold avgRssi
  rw [List.sum_append, List.length_append]
  push_cast
  exact double_div_double _ _

lemma lastLocation_append_self (fk : List FP) :
    lastLocation (fk ++ fk) = lastLocation fk := by
  cases fk with
  | nil => rfl
  | cons x xs =>
      unfold lastLocation
      rw [List.foldl_append]
      simp only [List.foldl_cons]

lemma matchedMacs_append_self (fk : List FP) (aps : List Obs) :
    matchedMacs (fk ++ fk) aps = matchedMacs fk aps := by
  unfold matchedMacs
  rw [roomMacs_append_self]

lemma matchCount_append_self (fk : List FP) (aps : List Obs) :
    matchCount (fk ++ fk) aps = matchCount fk aps := by
  unfold matchCount
  rw [matchedMacs_append_self]

lemma scoreSum_append_self (fk : List FP) (aps : List Obs) :
    scoreSum (fk ++ fk) aps = scoreSum fk aps := by
  unfold scoreSum
  rw [matchedMacs_append_self]
  refine congrArg List.sum (List.map_congr_left (fun m _ => ?_))
  rw [rssiList_append_self, avgRssi_append_self]

lemma roomScoreQ_append_self (fps : List FP) (aps : List Obs) (k : String × String) :
    roomScoreQ (fps ++ fps) aps k = roomScoreQ fps aps k := by
  unfold roomScoreQ
  rw [roomFps_append, scoreSum_append_self, matchCount_append_self]

lemma mkMatch_append_self (fps : List FP) (aps : List Obs) (k : String × String) :
    mkMatch (fps ++ fps) aps k = mkMatch fps aps k := by
  simp only [mkMatch]
  rw [roomFps_append, roomScoreQ_append_self, List.map_append, List.sum_append,
    List.map_append, List.sum_append, List.length_append, lastLocation_append_self,
    matchCount_append_self]
  push_cast
  rw [double_div_double, double_div_double]

lemma bestStep_append_self (fps : List FP) (aps : List Obs)
    (acc : Option (ℚ × Match)) (k : String × String) :
    bestStep (fps ++ fps) aps acc k = bestStep fps aps acc k := by
  unfold bestStep
  rw [roomFps_append, matchCount_append_self, roomScoreQ_append_self,
    mkMatch_append_self]

lemma roomKeys_append_self (fps : List FP) :
    roomKeys (fps ++ fps) = roomKeys fps := by
  unfold roomKeys
  rw [List.map_append, firstDedup_append_self]

lemma simple_rssi_matching_append_self (fps : List FP) (aps : List Obs) :
    simple_rssi_matching (fps ++ fps) aps = simple_rssi_matching fps aps := by
  unfold simple_rssi_matching
  rw [roomKeys_append_self]
  have hfold : (roomKeys fps).foldl (bestStep (fps ++ fps) aps) none =
      (roomKeys fps).foldl (bestStep fps aps) none :=
    List.foldl_ext (bestStep (fps ++ fps) aps) (bestStep fps aps) none
      (fun acc k _ => bestStep_append_self fps aps acc k)
  rw [hfold]

/-! ## Lemmas: characterization of the matcher fold -/

lemma bestFold_eq_none_iff (fps : List FP) (aps : List Obs) :
    ∀ (ks : List (String × String)) (acc : Option (ℚ × Match)),
      ks.foldl (bestStep fps aps) acc = none ↔
        acc = none ∧ ∀ k ∈ ks, matchCount (roomFps fps k) aps = 0 := by
  intro ks
  induction ks with
  | nil => intro acc; simp
  | cons k ks ih =>
      intro acc
      rw [List.foldl_cons, ih]
      by_cases hm : 0 < matchCount (roomFps fps k) aps
      · have hm' : matchCount (roomFps fps k) aps ≠ 0 := Nat.pos_iff_ne_zero.mp hm
        cases acc with
        | none =>
            simp only [bestStep, if_pos hm]
            simp [hm']
        | some p =>
            obtain ⟨bs, bm⟩ := p
            simp only [bestStep, if_pos hm]
            by_cases hlt : bs < roomScoreQ fps aps k
            · rw [if_pos hlt]; simp [hm']
            · rw [if_neg hlt]; simp [hm']
      · have hz : matchCount (roomFps fps k) aps = 0 := Nat.eq_zero_of_not_pos hm
        simp only [bestStep, if_neg hm]
        simp [List.forall_mem_cons, hz]

lemma bestFold_eq_some (fps : List FP) (aps : List Obs) :
    ∀ (ks : List (String × String)) (acc : Option (ℚ × Match)) (p : ℚ × Match),
      ks.foldl (bestStep fps aps) acc = some p →
        acc = some p ∨ ∃ k ∈ ks, 0 < matchCount (roomFps fps k) aps ∧
          p = (roomScoreQ fps aps k, mkMatch fps aps k) := by
  intro ks
  induction ks with
  | nil => intro acc p h; exact Or.inl h
  | cons k ks ih =>
      intro acc p h
      rw [List.foldl_cons] at h
      rcases ih _ p h with h1 | ⟨k', hk', hc', hp'⟩
      · by_cases hm : 0 < matchCount (roomFps fps k) aps
        · cases acc with
          | none =>
              simp only [bestStep, if_pos hm, Option.some.injEq] at h1
              exact Or.inr ⟨k, List.mem_cons_self k ks, hm, h1.symm⟩
          | some q =>
              obtain ⟨bs, bm⟩ := q
              simp only [bestStep, if_pos hm] at h1
              by_cases hlt : bs < roomScoreQ fps aps k
              · rw [if_pos hlt] at h1
                exact Or.inr ⟨k, List.mem_cons_self k ks, hm,
                  (Option.some.injEq _ _ ▸ h1).symm⟩
              · rw [if_neg hlt] at h1
                exact Or.inl h1
        · simp only [bestStep, if_neg hm] at h1
          exact Or.inl h1
      · exact Or.inr ⟨k', List.mem_cons_of_mem k hk', hc', hp'⟩

lemma matching_eq_none_iff (fps : List FP) (aps : List Obs) :
    simple_rssi_matching fps aps = none ↔
      ∀ k ∈ roomKeys fps, matchCount (roomFps fps k) aps = 0 := by
  unfold simple_rssi_matching
  rw [Option.map_eq_none']
  rw [bestFold_eq_none_iff fps aps (roomKeys fps) none]
  simp

lemma matching_eq_some (fps : List FP) (aps : List Obs) (m : Match)
    (h : simple_rssi_matching fps aps = some m) :
    ∃ k ∈ roomKeys fps, 0 < matchCount (roomFps fps k) aps ∧
      m = mkMatch fps aps k := by
  unfold simple_rssi_matching at h
  rw [Option.map_eq_some'] at h
  obtain ⟨p, hp, hm⟩ := h
  rcases bestFold_eq_some fps aps (roomKeys fps) none p hp with h0 | ⟨k, hk, hc, hpk⟩
  · exact absurd h0 (by simp)
  · refine ⟨k, hk, hc, ?_⟩
    rw [← hm, hpk]

/-! ## Lemmas: `ap_database` construction -/

lemma present_insertNew_self (db : List (String × APInfo)) (m : String) (info : APInfo) :
    present (insertNew db m info) m := by
  unfold insertNew
  by_cases h : (dbLookup db m).isSome
  · rw [if_pos h]; exact h
  · rw [if_neg h]
    unfold present dbLookup
    rw [List.find?_append]
    simp

lemma present_insertNew_mono (db : List (String × APInfo)) (k : String) (info : APInfo)
    (m : String) (h : present db m) : present (insertNew db k info) m := by
  unfold insertNew
  by_cases hk : (dbLookup db k).isSome
  · rw [if_pos hk]; exact h
  · rw [if_neg hk]
    unfold present dbLookup at h ⊢
    have h' : (db.find? (fun e => e.1 == m)).isSome = true := by
      rcases hfind : db.find? (fun e => e.1 == m) with _ | e
      · rw [hfind] at h; simp at h
      · rw [hfind]; rfl
    rcases Option.isSome_iff_exists.mp h' with ⟨e, he⟩
    rw [List.find?_append, he]
    rfl

lemma insertNew_of_present (db : List (String × APInfo)) (m : String) (info : APInfo)
    (h : present db m) : insertNew db m info = db := by
  unfold present at h
  unfold insertNew
  rw [if_pos h]

lemma present_insFold_mono (info : APInfo) :
    ∀ (ms : List String) (db : List (String × APInfo)) (m : String), present db m →
      present (ms.foldl (fun d x => insertNew d x info) db) m := by
  intro ms
  induction ms with
  | nil => intro db m h; exact h
  | cons x ms ih =>
      intro db m h
      rw [List.foldl_cons]
      exact ih _ m (present_insertNew_mono db x info m h)

lemma present_insFold_self (info : APInfo) :
    ∀ (ms : List String) (db : List (String × APInfo)) (m : String), m ∈ ms →
      present (ms.foldl (fun d x => insertNew d x info) db) m := by
  intro ms
  induction ms with
  | nil => intro db m h; cases h
  | cons x ms ih =>
      intro db m h
      rw [List.foldl_cons]
      rcases List.mem_cons.mp h with rfl | hm
      · exact present_insFold_mono info ms _ m (present_insertNew_self db m info)
      · exact ih _ m hm

lemma insFold_noop (info : APInfo) :
    ∀ (ms : List String) (db : List (String × APInfo)),
      (∀ x ∈ ms, present db x) →
      ms.foldl (fun d x => insertNew d x info) db = db := by
  intro ms
  induction ms with
  | nil => intro db _; rfl
  | cons x ms ih =>
      intro db h
      rw [List.foldl_cons, insertNew_of_present db x info (h x (List.mem_cons_self x ms))]
      exact ih db (fun y hy => h y (List.mem_cons_of_mem x hy))

lemma present_buildFold_mono (fps : List FP) :
    ∀ (ks : List (String × String)) (db : List (String × APInfo)) (m : String),
      present db m → present (ks.foldl (insertRoomMacs fps) db) m := by
  intro ks
  induction ks with
  | nil => intro db m h; exact h
  | cons k ks ih =>
      intro db m h
      rw [List.foldl_cons]
      exact ih _ m (present_insFold_mono (roomInfo fps k) _ db m h)

lemma present_buildFold_self (fps : List FP) :
    ∀ (ks : List (String × String)) (db : List (String × APInfo))
      (k : String × String) (m : String), k ∈ ks → m ∈ roomMacs (roomFps fps k) →
      present (ks.foldl (insertRoomMacs fps) db) m := by
  intro ks
  induction ks with
  | nil => intro db k m h _; cases h
  | cons k' ks ih =>
      intro db k m hk hm
      rw [List.foldl_cons]
      rcases List.mem_cons.mp hk with rfl | hk'
      · exact present_buildFold_mono fps ks _ m
          (present_insFold_self (roomInfo fps k) _ db m hm)
      · exact ih _ k m hk' hm

lemma buildFold_noop (fps : List FP) :
    ∀ (ks : List (String × String)) (db : List (String × APInfo)),
      (∀ k ∈ ks, ∀ m ∈ roomMacs (roomFps fps k), present db m) →
      ks.foldl (insertRoomMacs fps) db = db := by
  intro ks
  induction ks with
  | nil => intro db _; rfl
  | cons k ks ih =>
      intro db h
      rw [List.foldl_cons]
      have hk : insertRoomMacs fps db k = db :=
        insFold_noop (roomInfo fps k) _ db (h k (List.mem_cons_self k ks))
      rw [hk]
      exact ih db (fun k' hk' => h k' (List.mem_cons_of_mem k hk'))

lemma buildApDb_twice (samples' : List FP) :
    buildApDb (buildApDb [] samples') (samples' ++ samples') = buildApDb [] samples' := by
  unfold buildApDb
  rw [roomKeys_append_self]
  refine buildFold_noop (samples' ++ samples') (roomKeys samples') (buildApDb [] samples')
    (fun k hk m hm => ?_)
  rw [roomFps_append, roomMacs_append_self] at hm
  exact present_buildFold_self samples' (roomKeys samples') [] k m hk hm

/-! ## Lemmas: triangulation -/

lemma tri_foldl (db : List (String × APInfo)) :
    ∀ (aps : List Obs) (acc : TriAcc),
      aps.foldl (triStep db) acc = ⟨
        acc.nx + ((matchedObs db aps).map
          (fun a => ((triLat db a : ℚ) : ℝ) * triWeight a.rssi)).sum,
        acc.ny + ((matchedObs db aps).map
          (fun a => ((triLon db a : ℚ) : ℝ) * triWeight a.rssi)).sum,
        acc.den + ((matchedObs db aps).map (fun a => triWeight a.rssi)).sum,
        acc.matched + (matchedObs db aps).length,
        acc.details ++ (matchedObs db aps).map
          (fun a => ⟨a.mac, triSsid db a, a.rssi, rssi_to_distance a.rssi⟩)⟩ := by
  intro aps
  induction aps with
  | nil => intro acc; simp [matchedObs]
  | cons a aps ih =>
      intro acc
      rw [List.foldl_cons]
      rcases hl : dbLookup db (lowerString a.mac) with _ | known
      · have hstep : triStep db acc a = acc := by
          simp [triStep, hl]
        have hobs : matchedObs db (a :: aps) = matchedObs db aps := by
          unfold matchedObs
          rw [List.filter_cons]
          simp [hl]
        rw [hstep, hobs, ih]
      · have hstep : triStep db acc a =
            ⟨acc.nx + (known.lat : ℝ) * triWeight a.rssi,
             acc.ny + (known.lon : ℝ) * triWeight a.rssi,
             acc.den + triWeight a.rssi,
             acc.matched + 1,
             acc.details ++ [⟨a.mac, known.ssid, a.rssi, rssi_to_distance a.rssi⟩]⟩ := by
          simp [triStep, hl]
        have hobs : matchedObs db (a :: aps) = a :: matchedObs db aps := by
          unfold matchedObs
          rw [List.filter_cons]
          simp [hl]
        have hlat : triLat db a = known.lat := by simp [triLat, hl]
        have hlon : triLon db a = known.lon := by simp [triLon, hl]
        have hssid : triSsid db a = known.ssid := by simp [triSsid, hl]
        rw [hstep, ih, hobs]
        simp only [List.map_cons, List.sum_cons, List.length_cons, hlat, hlon, hssid,
          TriAcc.mk.injEq]
        refine ⟨by ring, by ring, by ring, by omega, by simp⟩

lemma rssi_to_distance_pos (r : ℤ) : 0 < rssi_to_distance r :=
  Real.rpow_pos_of_pos (by norm_num) _

lemma triWeight_pos (r : ℤ) : 0 < triWeight r := by
  unfold triWeight
  exact div_pos two_pos (Real.rpow_pos_of_pos (rssi_to_distance_pos r) _)

lemma triangulate_eq_none (db : List (String × APInfo)) (aps : List Obs)
    (h : matchedObs db aps = []) : triangulate db aps = none := by
  simp only [triangulate]
  rw [tri_foldl, h]
  simp

lemma triangulate_eq_some (db : List (String × APInfo)) (aps : List Obs)
    (h : matchedObs db aps ≠ []) :
    triangulate db aps = some ⟨true,
      ((matchedObs db aps).map (fun a => ((triLat db a : ℚ) : ℝ) * triWeight a.rssi)).sum /
        ((matchedObs db aps).map (fun a => triWeight a.rssi)).sum,
      ((matchedObs db aps).map (fun a => ((triLon db a : ℚ) : ℝ) * triWeight a.rssi)).sum /
        ((matchedObs db aps).map (fun a => triWeight a.rssi)).sum,
      (matchedObs db aps).length,
      (matchedObs db aps).map
        (fun a => ⟨a.mac, triSsid db a, a.rssi, rssi_to_distance a.rssi⟩)⟩ := by
  have hden : 0 < ((matchedObs db aps).map (fun a => triWeight a.rssi)).sum := by
    refine List.sum_pos _ (fun x hx => ?_) (by simpa using h)
    rcases List.mem_map.mp hx with ⟨a, _, rfl⟩
    exact triWeight_pos _
  simp only [triangulate]
  rw [tri_foldl]
  simp only [zero_add, Nat.zero_add, List.nil_append]
  rw [if_pos hden]

/-! ## Lemmas: branch behaviour of `locate_position` -/

lemma locate_position_empty (st : Store) (ts : String) :
    locate_position st [] ts = noDataResult ts := by
  simp [locate_position]

lemma locate_position_finger (st : Store) (aps : List Obs) (ts : String) (m : Match)
    (hne : aps ≠ []) (hm : simple_rssi_matching st.fps aps = some m)
    (hc : (3 : ℚ) / 10 < m.confidence) :
    locate_position st aps ts = fingerResult m aps ts := by
  simp [locate_position, hne, hm, hc]

lemma locate_position_tri (st : Store) (aps : List Obs) (ts : String) (c : TriResult)
    (hne : aps ≠ [])
    (hm : ∀ m, simple_rssi_matching st.fps aps = some m → m.confidence ≤ (3 : ℚ) / 10)
    (ht : triangulate st.apDb aps = some c) :
    locate_position st aps ts = triBranchResult c (locate_room st.apDb aps) ts := by
  rcases hsm : simple_rssi_matching st.fps aps with _ | m
  · simp [locate_position, hne, hsm, ht]
  · have hle := hm m hsm
    simp [locate_position, hne, hsm, ht, not_lt.mpr hle]

lemma locate_position_fail (st : Store) (aps : List Obs) (ts : String)
    (hne : aps ≠ [])
    (hm : ∀ m, simple_rssi_matching st.fps aps = some m → m.confidence ≤ (3 : ℚ) / 10)
    (ht : triangulate st.apDb aps = none) :
    locate_position st aps ts = insufficientResult ts := by
  rcases hsm : simple_rssi_matching st.fps aps with _ | m
  · simp [locate_position, hne, hsm, ht]
  · have hle := hm m hsm
    simp [locate_position, hne, hsm, ht, not_lt.mpr hle]

lemma roomFold_none (db : List (String × APInfo)) :
    ∀ (aps : List Obs),
      (∀ a ∈ aps, present db (lowerString a.mac) → a.rssi ≤ -100) →
      aps.foldl (roomStep db) ((none : Option APInfo), (-100 : ℤ)) = (none, -100) := by
  intro aps
  induction aps with
  | nil => intro _; rfl
  | cons a aps ih =>
      intro h
      rw [List.foldl_cons]
      have hstep : roomStep db (none, -100) a = (none, -100) := by
        unfold roomStep
        rcases hl : dbLookup db (lowerString a.mac) with _ | known
        · rfl
        · have hle : a.rssi ≤ -100 :=
            h a (List.mem_cons_self a aps) (by simp [present, hl])
          simp [not_lt.mpr hle]
      rw [hstep]
      exact ih (fun x hx => h x (List.mem_cons_of_mem a hx))

lemma locate_room_all_weak (db : List (String × APInfo)) (aps : List Obs)
    (h : ∀ a ∈ aps, present db (lowerString a.mac) → a.rssi ≤ -100) :
    locate_room db aps = ⟨"Unknown", "?", "Position non détectée", 0, "Aucune"⟩ := by
  unfold locate_room
  rw [roomFold_none db aps h]

lemma locate_position_congr (st st' : Store) (aps : List Obs) (ts : String)
    (h1 : simple_rssi_matching st'.fps aps = simple_rssi_matching st.fps aps)
    (h2 : st'.apDb = st.apDb) :
    locate_position st' aps ts = locate_position st aps ts := by
  unfold locate_position
  rw [h1, h2]

/-! ## Claim theorems -/

/-- C1 counterexample: a store with a single zone of which exactly
one known AP matches the live observation — so no zone reaches two
matched APs — for which `simple_rssi_matching` nevertheless returns a
match.  The code requires `matches > 0`, not `matches >= 2`. -/
theorem C1_counterexample :
    (∀ k ∈ roomKeys [⟨"201", "2", "Salle 201", 48, 2, "aa:aa:aa:aa:aa:aa", "X", -60, "t"⟩],
      matchCount (roomFps [⟨"201", "2", "Salle 201", 48, 2, "aa:aa:aa:aa:aa:aa", "X", -60, "t"⟩] k)
        [⟨"aa:aa:aa:aa:aa:aa", -60⟩] < 2) ∧
    simple_rssi_matching [⟨"201", "2", "Salle 201", 48, 2, "aa:aa:aa:aa:aa:aa", "X", -60, "t"⟩]
      [⟨"aa:aa:aa:aa:aa:aa", -60⟩] ≠ none := by
  exact ⟨by decide, by decide⟩

/-- C1 (amended): the RSSI matcher treats a zone as eligible as soon
as at least ONE of its known APs is present in the observation, and
it returns no match exactly when no zone has at least one matched AP;
any returned match has at least one matched AP. -/
theorem C1_single_match_suffices (fps : List FP) (aps : List Obs) :
    (simple_rssi_matching fps aps = none ↔
      ∀ k ∈ roomKeys fps, matchCount (roomFps fps k) aps = 0) ∧
    (∀ m, simple_rssi_matching fps aps = some m → 1 ≤ m.matched_aps) := by
  refine ⟨matching_eq_none_iff fps aps, fun m hm => ?_⟩
  obtain ⟨k, hk, hc, rfl⟩ := matching_eq_some fps aps m hm
  simpa [mkMatch] using hc

/-- C1 witness: the matcher applied to a store whose only zone has no
matched AP returns none, by the amended theorem. -/
theorem C1_single_match_suffices_witness :
    simple_rssi_matching [⟨"201", "2", "Salle 201", 48, 2, "aa:aa:aa:aa:aa:aa", "X", -60, "t"⟩]
      [⟨"bb:bb:bb:bb:bb:bb", -60⟩] = none :=
  (C1_single_match_suffices _ _).1.mpr (by decide)

/-- C3 counterexample: with a recorded mean of -10 dBm and an observed
-128 dBm the difference 118 exceeds 100 and the returned confidence is
-9/50 < 0, refuting the per-AP cap, the lower clamp and confidence
membership in [0, 1]; and for a zone knowing two APs of which one is
matched exactly, the code confidence is 1 while the claimed
coverage-scaled formula yields 3/4. -/
theorem C3_counterexample :
    simple_rssi_matching [⟨"201", "2", "Salle 201", 48, 2, "aa:aa:aa:aa:aa:aa", "X", -10, "t"⟩]
      [⟨"aa:aa:aa:aa:aa:aa", -128⟩] =
      some ⟨"201", "2", 48, 2, "Salle 201", -(9 / 50 : ℚ), 1⟩ ∧
    (-(9 / 50 : ℚ)) < 0 ∧
    simple_rssi_matching
      [⟨"201", "2", "S", 48, 2, "aa", "X", -60, "t"⟩, ⟨"201", "2", "S", 48, 2, "bb", "X", -60, "t"⟩]
      [⟨"aa", -60⟩] = some ⟨"201", "2", 48, 2, "S", 1, 1⟩ ∧
    (1 : ℚ) ≠ spec_zone_confidence
      [⟨"201", "2", "S", 48, 2, "aa", "X", -60, "t"⟩, ⟨"201", "2", "S", 48, 2, "bb", "X", -60, "t"⟩]
      [⟨"aa", -60⟩] ("201", "2") := by
  refine ⟨?_, by norm_num, ?_, ?_⟩
  · norm_num +decide [simple_rssi_matching, roomKeys, firstDedup, firstDedupAux, fpKey,
      bestStep, matchCount, matchedMacs, roomMacs, roomFps, detectedRssi, lowerString, lowerChar,
      scoreSum, roomScoreQ, mkMatch, rssiList, avgRssi, lastLocation]
  · norm_num +decide [simple_rssi_matching, roomKeys, firstDedup, firstDedupAux, fpKey,
      bestStep, matchCount, matchedMacs, roomMacs, roomFps, detectedRssi, lowerString, lowerChar,
      scoreSum, roomScoreQ, mkMatch, rssiList, avgRssi, lastLocation]
  · norm_num +decide [spec_zone_confidence, fpKey, matchCount, matchedMacs, roomMacs, roomFps,
      detectedRssi, lowerString, lowerChar, rssiList, avgRssi, firstDedup, firstDedupAux]

/-- C3 (amended): every match returned by the RSSI matcher belongs to
some zone with at least one matched AP; each matched AP contributes
the uncapped score `100 - abs(observed - recorded mean)`, the zone
score is the plain average of these contributions with no coverage
scaling, and the confidence is `min(score / 100, 1)` — at most 1, but
possibly negative. -/
theorem C3_zone_scoring (fps : List FP) (aps : List Obs) (m : Match)
    (h : simple_rssi_matching fps aps = some m) :
    ∃ k ∈ roomKeys fps, 0 < matchCount (roomFps fps k) aps ∧
      m = mkMatch fps aps k ∧
      m.confidence =
        min (scoreSum (roomFps fps k) aps / (matchCount (roomFps fps k) aps : ℚ) / 100) 1 ∧
      m.confidence ≤ 1 := by
  obtain ⟨k, hk, hc, rfl⟩ := matching_eq_some fps aps m h
  refine ⟨k, hk, hc, rfl, ?_, ?_⟩
  · simp [mkMatch, roomScoreQ]
  · simp only [mkMatch]
    exact min_le_right _ _

/-- C3 witness: the amended scoring theorem applied to the concrete
one-zone store of the counterexample. -/
theorem C3_zone_scoring_witness :
    ∃ k ∈ roomKeys [⟨"201", "2", "Salle 201", 48, 2, "aa:aa:aa:aa:aa:aa", "X", -10, "t"⟩],
      0 < matchCount
        (roomFps [⟨"201", "2", "Salle 201", 48, 2, "aa:aa:aa:aa:aa:aa", "X", -10, "t"⟩] k)
        [⟨"aa:aa:aa:aa:aa:aa", -128⟩] ∧
      (⟨"201", "2", 48, 2, "Salle 201", -(9 / 50 : ℚ), 1⟩ : Match) =
        mkMatch [⟨"201", "2", "Salle 201", 48, 2, "aa:aa:aa:aa:aa:aa", "X", -10, "t"⟩]
          [⟨"aa:aa:aa:aa:aa:aa", -128⟩] k ∧
      (⟨"201", "2", 48, 2, "Salle 201", -(9 / 50 : ℚ), 1⟩ : Match).confidence =
        min ((scoreSum
          (roomFps [⟨"201", "2", "Salle 201", 48, 2, "aa:aa:aa:aa:aa:aa", "X", -10, "t"⟩] k)
          [⟨"aa:aa:aa:aa:aa:aa", -128⟩]) /
          ((matchCount
            (roomFps [⟨"201", "2", "Salle 201", 48, 2, "aa:aa:aa:aa:aa:aa", "X", -10, "t"⟩] k)
            [⟨"aa:aa:aa:aa:aa:aa", -128⟩] : ℕ) : ℚ) / 100) 1 ∧
      (⟨"201", "2", 48, 2, "Salle 201", -(9 / 50 : ℚ), 1⟩ : Match).confidence ≤ 1 :=
  C3_zone_scoring _ _ _ (by
    norm_num +decide [simple_rssi_matching, roomKeys, firstDedup, firstDedupAux, fpKey,
      bestStep, matchCount, matchedMacs, roomMacs, roomFps, detectedRssi, lowerString, lowerChar,
      scoreSum, roomScoreQ, mkMatch, rssiList, avgRssi, lastLocation])

/-- C4: a buffer whose length is not a multiple of 7 decodes to the
empty observation list (the total Lean model of `decode_payload`
corresponds to the catch-all `except` of the code, which converts any
failure into the empty list rather than an exception). -/
theorem C4_decode_bad_length (buf : List (Fin 256)) (h : buf.length % 7 ≠ 0) :
    decode_payload buf = [] := by
  unfold decode_payload
  rw [if_pos h]

/-- C4 witness: a three-byte buffer decodes to the empty list. -/
theorem C4_decode_bad_length_witness :
    ([(0 : Fin 256), 0, 0] : List (Fin 256)).length % 7 ≠ 0 ∧
      decode_payload [0, 0, 0] = [] :=
  ⟨by decide, C4_decode_bad_length [0, 0, 0] (by decide)⟩

/-- C5: the seven-byte buffer 1E 92 9B E8 5C D9 BF decodes to the
single observation (1e:92:9b:e8:5c:d9, -65), and the all-zero
seven-byte buffer is padding and decodes to the empty list. -/
theorem C5_decode_examples :
    decode_payload [0x1E, 0x92, 0x9B, 0xE8, 0x5C, 0xD9, 0xBF] =
      [⟨"1e:92:9b:e8:5c:d9", -65⟩] ∧
    decode_payload (List.replicate 7 (0 : Fin 256)) = [] := by
  exact ⟨by decide, by decide⟩

/-- C6: locating with an empty observation list yields a failure
result with a descriptive error string and the timestamp of the call,
and no exception (the model is total). -/
theorem C6_empty_observation (st : Store) (ts : String) :
    (locate_position st [] ts).success = false ∧
    (locate_position st [] ts).error = some "No APs detected" ∧
    (locate_position st [] ts).timestamp = ts := by
  rw [locate_position_empty]
  exact ⟨rfl, rfl, rfl⟩

/-- C7: over the observations whose AP is present in the directory,
`triangulate` returns the weighted centroid with weights
`2 / d ** 0.65` and `d = 10 ** ((-40 - rssi) / (10 * 2.7))` (the
definitions of `triWeight` and `rssi_to_distance`), and no match when
no observed AP is in the directory. -/
theorem C7_triangulator_formula (db : List (String × APInfo)) (aps : List Obs) :
    (matchedObs db aps = [] → triangulate db aps = none) ∧
    (matchedObs db aps ≠ [] →
      ∃ t, triangulate db aps = some t ∧
        t.lat = ((matchedObs db aps).map
            (fun a => ((triLat db a : ℚ) : ℝ) * triWeight a.rssi)).sum /
          ((matchedObs db aps).map (fun a => triWeight a.rssi)).sum ∧
        t.lon = ((matchedObs db aps).map
            (fun a => ((triLon db a : ℚ) : ℝ) * triWeight a.rssi)).sum /
          ((matchedObs db aps).map (fun a => triWeight a.rssi)).sum ∧
        t.matched_aps = (matchedObs db aps).length) := by
  refine ⟨triangulate_eq_none db aps, fun h => ?_⟩
  exact ⟨_, triangulate_eq_some db aps h, rfl, rfl, rfl⟩

/-- C7 witness: the centroid formula instantiated on a directory of
one AP and one matching observation. -/
theorem C7_triangulator_formula_witness :
    matchedObs [("aa:aa:aa:aa:aa:aa", ⟨"Unknown", 48, 2, "Salle 201", "2", "201"⟩)]
      [⟨"aa:aa:aa:aa:aa:aa", -60⟩] ≠ [] ∧
    (∃ t, triangulate [("aa:aa:aa:aa:aa:aa", ⟨"Unknown", 48, 2, "Salle 201", "2", "201"⟩)]
        [⟨"aa:aa:aa:aa:aa:aa", -60⟩] = some t ∧
      t.lat = ((matchedObs [("aa:aa:aa:aa:aa:aa", ⟨"Unknown", 48, 2, "Salle 201", "2", "201"⟩)]
          [⟨"aa:aa:aa:aa:aa:aa", -60⟩]).map
            (fun a => ((triLat [("aa:aa:aa:aa:aa:aa", ⟨"Unknown", 48, 2, "Salle 201", "2", "201"⟩)]
              a : ℚ) : ℝ) * triWeight a.rssi)).sum /
        ((matchedObs [("aa:aa:aa:aa:aa:aa", ⟨"Unknown", 48, 2, "Salle 201", "2", "201"⟩)]
          [⟨"aa:aa:aa:aa:aa:aa", -60⟩]).map (fun a => triWeight a.rssi)).sum ∧
      t.lon = ((matchedObs [("aa:aa:aa:aa:aa:aa", ⟨"Unknown", 48, 2, "Salle 201", "2", "201"⟩)]
          [⟨"aa:aa:aa:aa:aa:aa", -60⟩]).map
            (fun a => ((triLon [("aa:aa:aa:aa:aa:aa", ⟨"Unknown", 48, 2, "Salle 201", "2", "201"⟩)]
              a : ℚ) : ℝ) * triWeight a.rssi)).sum /
        ((matchedObs [("aa:aa:aa:aa:aa:aa", ⟨"Unknown", 48, 2, "Salle 201", "2", "201"⟩)]
          [⟨"aa:aa:aa:aa:aa:aa", -60⟩]).map (fun a => triWeight a.rssi)).sum ∧
      t.matched_aps = (matchedObs [("aa:aa:aa:aa:aa:aa", ⟨"Unknown", 48, 2, "Salle 201", "2", "201"⟩)]
        [⟨"aa:aa:aa:aa:aa:aa", -60⟩]).length) :=
  ⟨by decide,
    (C7_triangulator_formula [("aa:aa:aa:aa:aa:aa", ⟨"Unknown", 48, 2, "Salle 201", "2", "201"⟩)]
      [⟨"aa:aa:aa:aa:aa:aa", -60⟩]).2 (by decide)⟩

/-- C8: loading the same sample batch a second time leaves every
`locate_position` output unchanged.  The code appends a duplicate of
every sample to `fingerprint_data`, but all per-zone means are
invariant under duplication, and `ap_database` keeps first-seen
entries, so nothing observable changes. -/
theorem C8_rebuild_idempotent (samples : List FP) (aps : List Obs) (ts : String) :
    locate_position (load_database (load_database ⟨[], []⟩ samples) samples) aps ts =
      locate_position (load_database ⟨[], []⟩ samples) aps ts := by
  apply locate_position_congr
  · simp only [load_database, List.nil_append]
    exact simple_rssi_matching_append_self _ aps
  · simp only [load_database, List.nil_append]
    exact buildApDb_twice _

/-- C9 counterexample: the result of `locate_position` embeds the
wall-clock reading (`datetime.now()`), so two calls with identical
observations and an identical snapshot but different clock readings
return different PositionResults — `locate` is not a pure function of
its two claimed inputs alone. -/
theorem C9_counterexample :
    locate_position ⟨[], []⟩ [] "2025-01-01T00:00:00" ≠
      locate_position ⟨[], []⟩ [] "2025-01-01T00:00:01" := by
  rw [locate_position_empty, locate_position_empty]
  intro h
  have ht := congrArg PositionResult.timestamp h
  simp [noDataResult] at ht

/-- C9 (amended): apart from the timestamp field, which records the
wall-clock time of the call, the result of `locate_position` is a
pure function of the observation list and the store snapshot: calls
with different clock readings agree after the timestamp is cleared. -/
theorem C9_determinism_modulo_timestamp (st : Store) (aps : List Obs) (t1 t2 : String) :
    clearTimestamp (locate_position st aps t1) = clearTimestamp (locate_position st aps t2) := by
  by_cases hne : aps = []
  · subst hne
    rw [locate_position_empty, locate_position_empty]
    rfl
  · cases hsm : simple_rssi_matching st.fps aps with
    | some m =>
        by_cases hc : (3 : ℚ) / 10 < m.confidence
        · rw [locate_position_finger st aps t1 m hne hsm hc,
            locate_position_finger st aps t2 m hne hsm hc]
          rfl
        · have hle : ∀ m', simple_rssi_matching st.fps aps = some m' →
              m'.confidence ≤ (3 : ℚ) / 10 := by
            intro m' hm'
            rw [hsm] at hm'
            injection hm' with h
            rw [← h]
            exact not_lt.mp hc
          cases ht : triangulate st.apDb aps with
          | some c =>
              rw [locate_position_tri st aps t1 c hne hle ht,
                locate_position_tri st aps t2 c hne hle ht]
              rfl
          | none =>
              rw [locate_position_fail st aps t1 hne hle ht,
                locate_position_fail st aps t2 hne hle ht]
              rfl
    | none =>
        have hle : ∀ m', simple_rssi_matching st.fps aps = some m' →
            m'.confidence ≤ (3 : ℚ) / 10 := by
          intro m' hm'
          rw [hsm] at hm'
          cases hm'
        cases ht : triangulate st.apDb aps with
        | some c =>
            rw [locate_position_tri st aps t1 c hne hle ht,
              locate_position_tri st aps t2 c hne hle ht]
            rfl
        | none =>
            rw [locate_position_fail st aps t1 hne hle ht,
              locate_position_fail st aps t2 hne hle ht]
            rfl

/-- C10: the nearest-AP estimator starts its best-RSSI accumulator at
-100 with a strict comparison, so it never selects an AP whose RSSI
is at most -100 dBm; consequently a store whose only directory AP is
observed at -105 dBm makes `locate_position` return a successful
Triangulation result whose room is Unknown, floor is ? and location
is Position non détectée. -/
theorem C10_weak_signal_room_unknown :
    (∀ (db : List (String × APInfo)) (aps : List Obs),
      (∀ a ∈ aps, present db (lowerString a.mac) → a.rssi ≤ -100) →
      locate_room db aps = ⟨"Unknown", "?", "Position non détectée", 0, "Aucune"⟩) ∧
    ((locate_position
        ⟨[⟨"201", "2", "Salle 201", 48, 2, "aa:aa:aa:aa:aa:aa", "X", -10, "t"⟩],
          [("aa:aa:aa:aa:aa:aa", ⟨"Unknown", 48, 2, "Salle 201", "2", "201"⟩)]⟩
        [⟨"aa:aa:aa:aa:aa:aa", -105⟩] "T").success = true ∧
      (locate_position
        ⟨[⟨"201", "2", "Salle 201", 48, 2, "aa:aa:aa:aa:aa:aa", "X", -10, "t"⟩],
          [("aa:aa:aa:aa:aa:aa", ⟨"Unknown", 48, 2, "Salle 201", "2", "201"⟩)]⟩
        [⟨"aa:aa:aa:aa:aa:aa", -105⟩] "T").method = some "Triangulation" ∧
      (locate_position
        ⟨[⟨"201", "2", "Salle 201", 48, 2, "aa:aa:aa:aa:aa:aa", "X", -10, "t"⟩],
          [("aa:aa:aa:aa:aa:aa", ⟨"Unknown", 48, 2, "Salle 201", "2", "201"⟩)]⟩
        [⟨"aa:aa:aa:aa:aa:aa", -105⟩] "T").room = some "Unknown" ∧
      (locate_position
        ⟨[⟨"201", "2", "Salle 201", 48, 2, "aa:aa:aa:aa:aa:aa", "X", -10, "t"⟩],
          [("aa:aa:aa:aa:aa:aa", ⟨"Unknown", 48, 2, "Salle 201", "2", "201"⟩)]⟩
        [⟨"aa:aa:aa:aa:aa:aa", -105⟩] "T").floor = some "?" ∧
      (locate_position
        ⟨[⟨"201", "2", "Salle 201", 48, 2, "aa:aa:aa:aa:aa:aa", "X", -10, "t"⟩],
          [("aa:aa:aa:aa:aa:aa", ⟨"Unknown", 48, 2, "Salle 201", "2", "201"⟩)]⟩
        [⟨"aa:aa:aa:aa:aa:aa", -105⟩] "T").location = some "Position non détectée") := by
  refine ⟨locate_room_all_weak, ?_⟩
  have hmatch : simple_rssi_matching
      [⟨"201", "2", "Salle 201", 48, 2, "aa:aa:aa:aa:aa:aa", "X", -10, "t"⟩]
      [⟨"aa:aa:aa:aa:aa:aa", -105⟩] =
      some ⟨"201", "2", 48, 2, "Salle 201", 1 / 20, 1⟩ := by
    norm_num +decide [simple_rssi_matching, roomKeys, firstDedup, firstDedupAux, fpKey,
      bestStep, matchCount, matchedMacs, roomMacs, roomFps, detectedRssi, lowerString, lowerChar,
      scoreSum, roomScoreQ, mkMatch, rssiList, avgRssi, lastLocation]
  have htri := triangulate_eq_some
    [("aa:aa:aa:aa:aa:aa", ⟨"Unknown", 48, 2, "Salle 201", "2", "201"⟩)]
    [⟨"aa:aa:aa:aa:aa:aa", -105⟩] (by decide)
  have hloc := locate_position_tri
    ⟨[⟨"201", "2", "Salle 201", 48, 2, "aa:aa:aa:aa:aa:aa", "X", -10, "t"⟩],
      [("aa:aa:aa:aa:aa:aa", ⟨"Unknown", 48, 2, "Salle 201", "2", "201"⟩)]⟩
    [⟨"aa:aa:aa:aa:aa:aa", -105⟩] "T" _ (by decide)
    (fun m hm => by
      rw [hmatch] at hm
      injection hm with hm'
      rw [← hm']
      norm_num)
    htri
  have hroom : locate_room [("aa:aa:aa:aa:aa:aa", ⟨"Unknown", 48, 2, "Salle 201", "2", "201"⟩)]
      [⟨"aa:aa:aa:aa:aa:aa", -105⟩] =
      ⟨"Unknown", "?", "Position non détectée", 0, "Aucune"⟩ := by decide
  rw [hloc, hroom]
  exact ⟨rfl, rfl, rfl, rfl, rfl⟩

/-- C10 witness: the universal part of the weak-signal theorem
applied to a one-entry directory observed at -120 dBm. -/
theorem C10_weak_signal_room_unknown_witness :
    locate_room [("aa:aa:aa:aa:aa:aa", ⟨"Unknown", 48, 2, "Salle 201", "2", "201"⟩)]
      [⟨"aa:aa:aa:aa:aa:aa", -120⟩] =
      ⟨"Unknown", "?", "Position non détectée", 0, "Aucune"⟩ :=
  C10_weak_signal_room_unknown.1 _ _ (by decide)

/-- C2 counterexample: when the matcher is confident the method
string of the result is the literal RSSI Matching, not Fingerprinting
as claimed; and the failure branch error string is Insufficient data,
capitalized, not the claimed lowercase form. -/
theorem C2_counterexample :
    (locate_position
      ⟨[⟨"201", "2", "S", 48, 2, "aa", "X", -60, "t"⟩,
        ⟨"201", "2", "S", 48, 2, "bb", "X", -60, "t"⟩], []⟩
      [⟨"aa", -60⟩] "T").method = some "RSSI Matching" ∧
    (locate_position
      ⟨[⟨"201", "2", "S", 48, 2, "aa", "X", -60, "t"⟩,
        ⟨"201", "2", "S", 48, 2, "bb", "X", -60, "t"⟩], []⟩
      [⟨"aa", -60⟩] "T").method ≠ some "Fingerprinting" ∧
    (locate_position ⟨[], []⟩ [⟨"aa", -50⟩] "T").error = some "Insufficient data" ∧
    (locate_position ⟨[], []⟩ [⟨"aa", -50⟩] "T").error ≠ some "insufficient data" := by
  have hmatch : simple_rssi_matching
      [⟨"201", "2", "S", 48, 2, "aa", "X", -60, "t"⟩,
        ⟨"201", "2", "S", 48, 2, "bb", "X", -60, "t"⟩]
      [⟨"aa", -60⟩] = some ⟨"201", "2", 48, 2, "S", 1, 1⟩ := by
    norm_num +decide [simple_rssi_matching, roomKeys, firstDedup, firstDedupAux, fpKey,
      bestStep, matchCount, matchedMacs, roomMacs, roomFps, detectedRssi, lowerString, lowerChar,
      scoreSum, roomScoreQ, mkMatch, rssiList, avgRssi, lastLocation]
  have h1 := locate_position_finger
    ⟨[⟨"201", "2", "S", 48, 2, "aa", "X", -60, "t"⟩,
      ⟨"201", "2", "S", 48, 2, "bb", "X", -60, "t"⟩], []⟩
    [⟨"aa", -60⟩] "T" ⟨"201", "2", 48, 2, "S", 1, 1⟩ (by decide) hmatch (by norm_num)
  have hnone : simple_rssi_matching ([] : List FP) [⟨"aa", -50⟩] = none := rfl
  have h2 := locate_position_fail (⟨[], []⟩ : Store) [⟨"aa", -50⟩] "T" (by decide)
    (fun m hm => by simp [hnone] at hm) (triangulate_eq_none _ _ rfl)
  rw [h1, h2]
  exact ⟨rfl, by decide, rfl, by decide⟩

/-- C2 (amended): for a non-empty observation list the arbiter
returns, in order: the matcher result as a success with method
string RSSI Matching and every position field taken from the matched
zone whenever the matcher confidence strictly exceeds the constant
0.3; otherwise, when at least one observed AP is in the directory,
a success with method Triangulation, position from the triangulator
and room/floor/location from the nearest-AP estimator; otherwise a
failure carrying the error string Insufficient data. -/
theorem C2_arbitration_policy (st : Store) (aps : List Obs) (ts : String) (hne : aps ≠ []) :
    (∀ m, simple_rssi_matching st.fps aps = some m → (3 : ℚ) / 10 < m.confidence →
      locate_position st aps ts = fingerResult m aps ts) ∧
    ((∀ m, simple_rssi_matching st.fps aps = some m → m.confidence ≤ (3 : ℚ) / 10) →
      matchedObs st.apDb aps ≠ [] →
      ∃ c, triangulate st.apDb aps = some c ∧
        locate_position st aps ts = triBranchResult c (locate_room st.apDb aps) ts) ∧
    ((∀ m, simple_rssi_matching st.fps aps = some m → m.confidence ≤ (3 : ℚ) / 10) →
      matchedObs st.apDb aps = [] →
      locate_position st aps ts = insufficientResult ts) := by
  refine ⟨fun m hm hc => locate_position_finger st aps ts m hne hm hc,
    fun hm hobs => ?_,
    fun hm hobs => locate_position_fail st aps ts hne hm (triangulate_eq_none _ _ hobs)⟩
  exact ⟨_, triangulate_eq_some _ _ hobs,
    locate_position_tri st aps ts _ hne hm (triangulate_eq_some _ _ hobs)⟩

/-- C2 witness: the failure branch of the arbitration policy on an
empty store and a single unknown observation. -/
theorem C2_arbitration_policy_witness :
    locate_position ⟨[], []⟩ [⟨"aa", -50⟩] "T" = insufficientResult "T" := by
  have hnone : simple_rssi_matching ([] : List FP) [⟨"aa", -50⟩] = none := rfl
  exact (C2_arbitration_policy ⟨[], []⟩ [⟨"aa", -50⟩] "T" (by decide)).2.2
    (fun m hm => by simp [hnone] at hm) rfl

end Geoloc
